import Mathlib

/-!
# Verification of the HowdyScreen bidirectional audio streaming core

Shallow embedding of the Python sources of the repository:

* `howdytts_esp32_server.py` — UDP transport listener (`ESP32AudioServer.receive_audio`),
  reply dispatcher (`ESP32AudioServer.send_audio`), and the segmentation loop
  (`HowdyTTSESP32Integration.process_audio_stream`);
* `tools/howdytts_test_server.py` — WebSocket message loop of the test server
  (`HowdyTTSTestServer.websocket_endpoint` / `handle_websocket_message`);
* the stream-transport session state machine of §4.4 of the design document,
  whose implementation (device firmware) is not among the Python sources and is
  therefore modelled from the specification.

Bytes are modelled as `Nat` values `< 256`, int16 samples as `Int`, machine
integers as `Nat` with explicit truncation where the wire format imposes it.
-/

namespace HowdyScreen

/-! ## Wire codec

The datagram header is `struct` format `'<IHH'`: little-endian
`timestamp : uint32`, `sequence : uint16`, `payload_size : uint16`,
followed by the payload bytes (`howdytts_esp32_server.py` lines 59-60 for
decoding, line 96-97 for encoding). -/

/-- Little-endian read of two bytes (`struct.unpack` of an `H` field). -/
def bytesToLe16 (b0 b1 : Nat) : Nat := b0 + 256 * b1

/-- Little-endian read of four bytes (`struct.unpack` of an `I` field). -/
def bytesToLe32 (b0 b1 b2 b3 : Nat) : Nat :=
  b0 + 256 * b1 + 65536 * b2 + 16777216 * b3

/-- Little-endian bytes of a `uint16` (`struct.pack` of an `H` field);
the explicit `% 256` is the wire truncation. -/
def le16Bytes (n : Nat) : List Nat := [n % 256, n / 256 % 256]

/-- Little-endian bytes of a `uint32` (`struct.pack` of an `I` field). -/
def le32Bytes (n : Nat) : List Nat :=
  [n % 256, n / 256 % 256, n / 65536 % 256, n / 16777216 % 256]

/-- Decode a received datagram: `struct.unpack('<IHH', data[:8])` followed by
the payload slice `data[8:8+data_size]` (a Python slice clamps at the end of
the buffer, as `List.take` does).  Packets shorter than the 8-byte header do
not decode. -/
def decodePacket (p : List Nat) : Option (Nat × Nat × Nat × List Nat) :=
  match p with
  | b0 :: b1 :: b2 :: b3 :: b4 :: b5 :: b6 :: b7 :: rest =>
      some (bytesToLe32 b0 b1 b2 b3, bytesToLe16 b4 b5, bytesToLe16 b6 b7,
            rest.take (bytesToLe16 b6 b7))
  | _ => none

/-- Encode a packet: `struct.pack('<IHH', timestamp, sequence, payload_size)`
concatenated with the payload bytes. -/
def encodePacket (ts seq sz : Nat) (payload : List Nat) : List Nat :=
  le32Bytes ts ++ le16Bytes seq ++ le16Bytes sz ++ payload

/-- `np.frombuffer(·, dtype=np.int16)` on a single little-endian sample:
two bytes reinterpreted as a signed 16-bit value. -/
def toInt16 (lo hi : Nat) : Int :=
  let u := lo + 256 * hi
  if u < 32768 then (u : Int) else (u : Int) - 65536

/-- `np.frombuffer(·, dtype=np.int16)` on a byte string: consecutive byte
pairs become signed samples.  (The conversion in the source raises when the
byte length is odd; that failure branch is modelled in `recvStep`.) -/
def bytesToInt16s : List Nat → List Int
  | lo :: hi :: rest => toInt16 lo hi :: bytesToInt16s rest
  | _ => []

lemma le16Bytes_bytesToLe16 (b0 b1 : Nat) (h0 : b0 < 256) (h1 : b1 < 256) :
    le16Bytes (bytesToLe16 b0 b1) = [b0, b1] := by
  simp only [le16Bytes, bytesToLe16, List.cons.injEq, and_true]
  refine ⟨by omega, by omega⟩

lemma le32Bytes_bytesToLe32 (b0 b1 b2 b3 : Nat)
    (h0 : b0 < 256) (h1 : b1 < 256) (h2 : b2 < 256) (h3 : b3 < 256) :
    le32Bytes (bytesToLe32 b0 b1 b2 b3) = [b0, b1, b2, b3] := by
  simp only [le32Bytes, bytesToLe32, List.cons.injEq, and_true]
  refine ⟨by omega, by omega, by omega, by omega⟩

lemma decodePacket_short (p : List Nat) (h : p.length < 8) :
    decodePacket p = none := by
  match p with
  | [] => rfl
  | [_] => rfl
  | [_, _] => rfl
  | [_, _, _] => rfl
  | [_, _, _, _] => rfl
  | [_, _, _, _, _] => rfl
  | [_, _, _, _, _, _] => rfl
  | [_, _, _, _, _, _, _] => rfl
  | _ :: _ :: _ :: _ :: _ :: _ :: _ :: _ :: _ => simp only [List.length_cons] at h; omega

/-- C3: for every valid packet (at least 8 bytes, every byte below 256, and a
`payload_size` header field equal to the packet length minus 8), decoding with
the `'<IHH'` little-endian format and re-encoding the decoded fields and
payload reproduces the packet byte for byte. -/
theorem packet_decode_encode_roundtrip (p : List Nat) (ts seq sz : Nat)
    (payload : List Nat) (hb : ∀ b ∈ p, b < 256)
    (hdec : decodePacket p = some (ts, seq, sz, payload))
    (hsz : sz = p.length - 8) :
    encodePacket ts seq sz payload = p := by
  rcases p with _ | ⟨b0, _ | ⟨b1, _ | ⟨b2, _ | ⟨b3, _ | ⟨b4, _ | ⟨b5,
      _ | ⟨b6, _ | ⟨b7, rest⟩⟩⟩⟩⟩⟩⟩⟩ <;>
    simp only [decodePacket, reduceCtorEq] at hdec
  obtain ⟨hts, hseq, hsz2, hpl⟩ := by
    simpa only [Option.some.injEq, Prod.mk.injEq] using hdec
  have hlen : sz = rest.length := by
    simp only [List.length_cons] at hsz; omega
  have hrest : payload = rest := by
    rw [← hpl, hsz2, hlen, List.take_length]
  have hmem : ∀ b ∈ [b0, b1, b2, b3, b4, b5, b6, b7], b < 256 := by
    intro b hbm
    refine hb b ?_
    simp only [List.mem_cons] at hbm ⊢
    tauto
  simp only [List.mem_cons, forall_eq_or_imp] at hmem
  subst hts hseq hrest
  rw [encodePacket, ← hsz2,
    le32Bytes_bytesToLe32 b0 b1 b2 b3 hmem.1 hmem.2.1 hmem.2.2.1 hmem.2.2.2.1,
    le16Bytes_bytesToLe16 b4 b5 hmem.2.2.2.2.1 hmem.2.2.2.2.2.1,
    le16Bytes_bytesToLe16 b6 b7 hmem.2.2.2.2.2.2.1 hmem.2.2.2.2.2.2.2.1]
  rfl

/-- Witness for C3 at the concrete packet
`[1,0,0,0, 2,0, 2,0, 7,8]` (timestamp 1, sequence 2, payload size 2). -/
theorem packet_decode_encode_roundtrip_witness :
    (∀ b ∈ [1, 0, 0, 0, 2, 0, 2, 0, 7, 8], b < 256) ∧
    decodePacket [1, 0, 0, 0, 2, 0, 2, 0, 7, 8] = some (1, 2, 2, [7, 8]) ∧
    (2 : Nat) = [1, 0, 0, 0, 2, 0, 2, 0, 7, 8].length - 8 ∧
    encodePacket 1 2 2 [7, 8] = [1, 0, 0, 0, 2, 0, 2, 0, 7, 8] :=
  ⟨by decide, by decide, by decide,
    packet_decode_encode_roundtrip [1, 0, 0, 0, 2, 0, 2, 0, 7, 8] 1 2 2 [7, 8]
      (by decide) (by decide) (by decide)⟩

/-! ## UDP receive loop (`ESP32AudioServer.receive_audio`, lines 46-69)

One iteration of the `while self.running.is_set()` loop, for the case in which
`recvfrom` returns a datagram (the `socket.timeout` case receives nothing and
changes nothing).  The iteration body:

* unconditionally updates `self.client_address` from the datagram's source
  address, logging a connect notification when the address differs;
* if the datagram has at least 8 bytes, unpacks the `'<IHH'` header, slices
  `data[8:8+data_size]`, converts the slice with
  `np.frombuffer(·, dtype=np.int16)` and enqueues the samples; the conversion
  raises `ValueError` when the slice length is odd, which the surrounding
  `except Exception` catches with `logger.error` and the loop continues;
* if the datagram is shorter than 8 bytes, the `if len(data) >= 8` guard
  skips it silently: nothing is enqueued, nothing is logged, no counter of
  any kind is touched.

`errorsLogged` counts executions of the `except Exception` branch
(`logger.error(...)`), the only error accounting in `receive_audio`. -/

/-- Mutable state of `ESP32AudioServer` visible to the receive loop:
the bound client endpoint and the count of logged receive errors. -/
structure RecvState where
  clientAddress : Option Nat
  errorsLogged : Nat
  deriving DecidableEq

/-- A received UDP datagram: source address and raw bytes. -/
structure Datagram where
  addr : Nat
  data : List Nat
  deriving DecidableEq

/-- Result of one receive-loop iteration: the updated server state, the
frame enqueued on `audio_queue` (if any), and whether the iteration logged
the "connected from" notification. -/
structure RecvResult where
  state : RecvState
  frame : Option (List Int)
  connected : Bool
  deriving DecidableEq

/-- One iteration of `receive_audio` processing datagram `d` in state `s`. -/
def recvStep (s : RecvState) (d : Datagram) : RecvResult :=
  let connected := s.clientAddress != some d.addr
  let s1 : RecvState := { s with clientAddress := some d.addr }
  match decodePacket d.data with
  | none => { state := s1, frame := none, connected := connected }
  | some (_, _, _, payload) =>
      if payload.length % 2 = 0 then
        { state := s1, frame := some (bytesToInt16s payload),
          connected := connected }
      else
        { state := { s1 with errorsLogged := s1.errorsLogged + 1 },
          frame := none, connected := connected }

/-- The receive loop folded over a finite list of incoming datagrams,
collecting the frames put on `audio_queue`. -/
def runRecvLoop (s : RecvState) : List Datagram → RecvState × List (List Int)
  | [] => (s, [])
  | d :: ds =>
      ((runRecvLoop (recvStep s d).state ds).1,
        (recvStep s d).frame.toList ++ (runRecvLoop (recvStep s d).state ds).2)

/-- C5 counterexample: a 4-byte datagram (shorter than the 8-byte header) is
discarded, but no error counter is incremented — the claim asserts the
counter is incremented, yet `errorsLogged` stays at 0: the short packet is
skipped by the `if len(data) >= 8` guard without reaching any error path. -/
theorem short_datagram_no_error_counted :
    recvStep ⟨none, 0⟩ ⟨1, [1, 2, 3, 4]⟩
      = ⟨⟨some 1, 0⟩, none, true⟩ ∧ (0 : Nat) ≠ 0 + 1 := by
  exact ⟨rfl, by decide⟩

/-- C5 (amended): a datagram shorter than the 8-byte header is discarded
(no frame is enqueued), nothing is raised, and the loop continues with the
next datagram — but no error counter is incremented: the short packet is
skipped silently. -/
theorem short_datagram_discarded (s : RecvState) (d : Datagram)
    (h : d.data.length < 8) :
    (recvStep s d).frame = none ∧
    (recvStep s d).state.errorsLogged = s.errorsLogged ∧
    ∀ ds, runRecvLoop s (d :: ds) = runRecvLoop (recvStep s d).state ds := by
  have hdec := decodePacket_short d.data h
  refine ⟨?_, ?_, ?_⟩
  · simp [recvStep, hdec]
  · simp [recvStep, hdec]
  · intro ds
    have hf : (recvStep s d).frame = none := by simp [recvStep, hdec]
    simp [runRecvLoop, hf]

/-- Witness for C5 (amended) at a concrete short datagram. -/
theorem short_datagram_discarded_witness :
    (Datagram.mk 1 [1, 2, 3, 4]).data.length < 8 ∧
    ((recvStep ⟨none, 0⟩ ⟨1, [1, 2, 3, 4]⟩).frame = none ∧
      (recvStep ⟨none, 0⟩ ⟨1, [1, 2, 3, 4]⟩).state.errorsLogged
        = (RecvState.mk none 0).errorsLogged ∧
      ∀ ds, runRecvLoop ⟨none, 0⟩ (⟨1, [1, 2, 3, 4]⟩ :: ds)
        = runRecvLoop (recvStep ⟨none, 0⟩ ⟨1, [1, 2, 3, 4]⟩).state ds) :=
  ⟨by decide, short_datagram_discarded ⟨none, 0⟩ ⟨1, [1, 2, 3, 4]⟩ (by decide)⟩

/-- C7: after an iteration of the receive loop that processes a datagram, the
active endpoint equals the datagram's source address; a datagram from a new
address replaces the endpoint and emits the connect notification; a datagram
from the currently active endpoint leaves it unchanged and emits nothing. -/
theorem single_active_endpoint (s : RecvState) (d : Datagram) :
    (recvStep s d).state.clientAddress = some d.addr ∧
    ((recvStep s d).connected = true ↔ s.clientAddress ≠ some d.addr) ∧
    (s.clientAddress = some d.addr →
      (recvStep s d).state.clientAddress = s.clientAddress ∧
      (recvStep s d).connected = false) := by
  have hca : (recvStep s d).state.clientAddress = some d.addr := by
    rcases hdec : decodePacket d.data with _ | ⟨ts, seq, sz, payload⟩ <;>
      simp [recvStep, hdec] <;> split <;> rfl
  have hcn : (recvStep s d).connected = (s.clientAddress != some d.addr) := by
    rcases hdec : decodePacket d.data with _ | ⟨ts, seq, sz, payload⟩ <;>
      simp [recvStep, hdec] <;> split <;> rfl
  refine ⟨hca, ?_, ?_⟩
  · rw [hcn]; exact bne_iff_ne
  · intro heq
    refine ⟨by rw [hca, heq], ?_⟩
    rw [hcn, heq, bne_self_eq_false]

/-- Witness for C7: the implications instantiated at a concrete state and
datagram coming from the already-active endpoint. -/
theorem single_active_endpoint_witness :
    (recvStep ⟨some 5, 0⟩ ⟨5, []⟩).state.clientAddress = some 5 ∧
    ((recvStep ⟨some 5, 0⟩ ⟨5, []⟩).connected = true ↔
      (RecvState.mk (some 5) 0).clientAddress ≠ some 5) ∧
    ((RecvState.mk (some 5) 0).clientAddress = some 5 →
      (recvStep ⟨some 5, 0⟩ ⟨5, []⟩).state.clientAddress
        = (RecvState.mk (some 5) 0).clientAddress ∧
      (recvStep ⟨some 5, 0⟩ ⟨5, []⟩).connected = false) :=
  single_active_endpoint ⟨some 5, 0⟩ ⟨5, []⟩

/-- C9: the active endpoint is updated from the source address of every
datagram before any header validation — a datagram shorter than 8 bytes
arriving from a new address still rebinds the endpoint and emits the connect
notification, even though no frame is enqueued. -/
theorem endpoint_update_precedes_validation (s : RecvState) (d : Datagram) :
    (recvStep s d).state.clientAddress = some d.addr ∧
    (d.data.length < 8 → (recvStep s d).frame = none) ∧
    (d.data.length < 8 → s.clientAddress ≠ some d.addr →
      (recvStep s d).connected = true) := by
  have hca : (recvStep s d).state.clientAddress = some d.addr := by
    rcases hdec : decodePacket d.data with _ | ⟨ts, seq, sz, payload⟩ <;>
      simp [recvStep, hdec] <;> split <;> rfl
  refine ⟨hca, ?_, ?_⟩
  · intro h
    simp [recvStep, decodePacket_short d.data h]
  · intro h hne
    simp [recvStep, decodePacket_short d.data h, hne]

/-- Witness for C9 at a concrete 3-byte datagram from a fresh address. -/
theorem endpoint_update_precedes_validation_witness :
    (recvStep ⟨none, 0⟩ ⟨7, [9, 9, 9]⟩).state.clientAddress = some 7 ∧
    ((Datagram.mk 7 [9, 9, 9]).data.length < 8 ∧
      (recvStep ⟨none, 0⟩ ⟨7, [9, 9, 9]⟩).frame = none) ∧
    ((RecvState.mk none 0).clientAddress ≠ some 7 ∧
      (recvStep ⟨none, 0⟩ ⟨7, [9, 9, 9]⟩).connected = true) := by
  have h := endpoint_update_precedes_validation ⟨none, 0⟩ ⟨7, [9, 9, 9]⟩
  exact ⟨h.1, ⟨by decide, h.2.1 (by decide)⟩,
    ⟨by decide, h.2.2 (by decide) (by decide)⟩⟩

/-- C10: a datagram of at least 8 bytes whose extracted payload slice has odd
byte length enqueues no frame; the conversion error is caught inside the loop
(the error log counter increments) and the loop goes on to later datagrams. -/
theorem odd_payload_error_caught (s : RecvState) (d : Datagram)
    (ts seq sz : Nat) (payload : List Nat)
    (hdec : decodePacket d.data = some (ts, seq, sz, payload))
    (hodd : payload.length % 2 = 1) :
    (recvStep s d).frame = none ∧
    (recvStep s d).state.errorsLogged = s.errorsLogged + 1 ∧
    ∀ ds, runRecvLoop s (d :: ds) = runRecvLoop (recvStep s d).state ds := by
  have hne : ¬ payload.length % 2 = 0 := by omega
  refine ⟨?_, ?_, ?_⟩
  · simp [recvStep, hdec, hne]
  · simp [recvStep, hdec, hne]
  · intro ds
    have hf : (recvStep s d).frame = none := by simp [recvStep, hdec, hne]
    simp [runRecvLoop, hf]

/-- Witness for C10 at a concrete 9-byte datagram with a 1-byte payload. -/
theorem odd_payload_error_caught_witness :
    decodePacket [0, 0, 0, 0, 0, 0, 1, 0, 5] = some (0, 0, 1, [5]) ∧
    ([5] : List Nat).length % 2 = 1 ∧
    ((recvStep ⟨none, 3⟩ ⟨2, [0, 0, 0, 0, 0, 0, 1, 0, 5]⟩).frame = none ∧
      (recvStep ⟨none, 3⟩ ⟨2, [0, 0, 0, 0, 0, 0, 1, 0, 5]⟩).state.errorsLogged
        = (RecvState.mk none 3).errorsLogged + 1 ∧
      ∀ ds, runRecvLoop ⟨none, 3⟩ (⟨2, [0, 0, 0, 0, 0, 0, 1, 0, 5]⟩ :: ds)
        = runRecvLoop
            (recvStep ⟨none, 3⟩ ⟨2, [0, 0, 0, 0, 0, 0, 1, 0, 5]⟩).state ds) :=
  ⟨by decide, by decide,
    odd_payload_error_caught ⟨none, 3⟩ ⟨2, [0, 0, 0, 0, 0, 0, 1, 0, 5]⟩
      0 0 1 [5] (by decide) (by decide)⟩

/-! ## Reply dispatcher (`ESP32AudioServer.send_audio`, lines 71-104)

`send_audio` returns immediately (after a warning) when no client is bound.
Otherwise it walks the sample buffer in steps of 320 (`for i in range(0,
len(audio_samples), chunk_size)`), zero-pads the final short slice to 320
samples, and only then packs the header with `len(chunk) * 2` — so the
`payload_size` field is computed from the already padded chunk.  The
wall-clock timestamp and the `time.sleep(0.018)` pacing are real-time
effects outside the embedding.  Samples are taken as already int16-valued
(the dtype conversion at lines 78-79 preserves the sample count). -/

/-- One transmitted reply chunk: its sequence number, the padded samples
actually packed into the packet, and the length of the slice
`audio_samples[i:i+320]` before padding. -/
structure Chunk where
  sequence : Nat
  payload : List Int
  prePadSamples : Nat
  deriving DecidableEq

/-- The `payload_size` header field of a chunk: `len(chunk) * 2`, computed
at line 96 after the padding at lines 91-92. -/
def Chunk.payloadSizeField (c : Chunk) : Nat := c.payload.length * 2

/-- The nominal chunk size of 320 samples (20 ms at 16 kHz). -/
def chunkSamples : Nat := 320

/-- The chunking loop of `send_audio`, starting at sequence number `seq`. -/
def sendChunks (samples : List Int) (seq : Nat) : List Chunk :=
  if h : samples = [] then []
  else
    let c := samples.take chunkSamples
    { sequence := seq,
      payload := c ++ List.replicate (chunkSamples - c.length) 0,
      prePadSamples := c.length }
      :: sendChunks (samples.drop chunkSamples) (seq + 1)
termination_by samples.length
decreasing_by
  simp only [List.length_drop]
  have hp : 0 < samples.length := List.length_pos.mpr h
  simp only [chunkSamples]
  omega

/-- Result of one `send_audio` call: the (unchanged) server state, the
chunks transmitted, and whether the "no client connected" warning fired. -/
structure SendResult where
  state : RecvState
  packets : List Chunk
  warned : Bool
  deriving DecidableEq

/-- `send_audio`: a warning-only no-op when no client endpoint is bound,
otherwise the chunked transmission starting at sequence 0. -/
def sendAudioServer (s : RecvState) (samples : List Int) : SendResult :=
  match s.clientAddress with
  | none => { state := s, packets := [], warned := true }
  | some _ => { state := s, packets := sendChunks samples 0, warned := false }

lemma sendChunks_nil (seq : Nat) : sendChunks [] seq = [] := by
  simp [sendChunks]

lemma sendChunks_cons (samples : List Int) (seq : Nat) (h : samples ≠ []) :
    sendChunks samples seq
      = { sequence := seq,
          payload := samples.take chunkSamples
            ++ List.replicate (chunkSamples - (samples.take chunkSamples).length) 0,
          prePadSamples := (samples.take chunkSamples).length }
        :: sendChunks (samples.drop chunkSamples) (seq + 1) := by
  rw [sendChunks]
  simp [h]

lemma sendChunks_ne_nil (samples : List Int) (seq : Nat) (h : samples ≠ []) :
    sendChunks samples seq ≠ [] := by
  rw [sendChunks_cons samples seq h]
  simp

lemma sendChunks_length (samples : List Int) (seq : Nat) :
    (sendChunks samples seq).length = (samples.length + 319) / 320 := by
  by_cases h : samples = []
  · subst h; simp [sendChunks_nil]
  · rw [sendChunks_cons samples seq h]
    have ih := sendChunks_length (samples.drop chunkSamples) (seq + 1)
    have hp : 0 < samples.length := List.length_pos.mpr h
    rw [List.length_cons, ih, List.length_drop]
    simp only [chunkSamples]
    omega
termination_by samples.length
decreasing_by
  simp only [List.length_drop]
  have hp : 0 < samples.length := List.length_pos.mpr h
  simp only [chunkSamples]
  omega

lemma sendChunks_map_sequence (samples : List Int) (seq : Nat) :
    (sendChunks samples seq).map Chunk.sequence
      = List.range' seq (sendChunks samples seq).length := by
  by_cases h : samples = []
  · subst h; simp [sendChunks_nil]
  · rw [sendChunks_cons samples seq h]
    have ih := sendChunks_map_sequence (samples.drop chunkSamples) (seq + 1)
    simp only [List.map_cons, List.length_cons, List.range'_succ, ih]
termination_by samples.length
decreasing_by
  simp only [List.length_drop]
  have hp : 0 < samples.length := List.length_pos.mpr h
  simp only [chunkSamples]
  omega

lemma sendChunks_payloadSizeField (samples : List Int) (seq : Nat) :
    ∀ c ∈ sendChunks samples seq, c.payloadSizeField = 640 := by
  by_cases h : samples = []
  · subst h; simp [sendChunks_nil]
  · rw [sendChunks_cons samples seq h]
    intro c hc
    rcases List.mem_cons.mp hc with rfl | hc
    · simp only [Chunk.payloadSizeField, List.length_append,
        List.length_replicate, List.length_take, chunkSamples]
      omega
    · exact sendChunks_payloadSizeField (samples.drop chunkSamples) (seq + 1) c hc
termination_by samples.length
decreasing_by
  simp only [List.length_drop]
  have hp : 0 < samples.length := List.length_pos.mpr h
  simp only [chunkSamples]
  omega

lemma sendChunks_getLast_prePad (samples : List Int) (seq : Nat)
    (h : samples ≠ []) :
    (sendChunks samples seq).getLast?.map Chunk.prePadSamples
      = some (if samples.length % 320 = 0 then 320 else samples.length % 320) := by
  rw [sendChunks_cons samples seq h]
  by_cases hrest : samples.drop chunkSamples = []
  · have hle : samples.length ≤ 320 := by
      have := List.drop_eq_nil_iff.mp hrest
      simpa [chunkSamples] using this
    have hp : 0 < samples.length := List.length_pos.mpr h
    rw [hrest, sendChunks_nil]
    simp only [List.getLast?_singleton, Option.map_some', Option.some.injEq,
      List.length_take, chunkSamples]
    rw [min_eq_right hle]
    split <;> omega
  · have ih := sendChunks_getLast_prePad (samples.drop chunkSamples) (seq + 1) hrest
    obtain ⟨c2, l2, hl2⟩ := List.exists_cons_of_ne_nil
      (sendChunks_ne_nil (samples.drop chunkSamples) (seq + 1) hrest)
    rw [hl2, List.getLast?_cons_cons, ← hl2, ih]
    have hgt : 320 < samples.length := by
      have := List.length_pos.mpr hrest
      simp only [List.length_drop, chunkSamples] at this
      omega
    have hmod : (samples.drop chunkSamples).length % 320 = samples.length % 320 := by
      simp only [List.length_drop, chunkSamples]
      omega
    rw [hmod]
termination_by samples.length
decreasing_by
  simp only [List.length_drop]
  have hp : 0 < samples.length := List.length_pos.mpr h
  simp only [chunkSamples]
  omega

/-- C1 counterexample: dispatching a 100-sample reply (`100 % 320 = 100`)
produces a single chunk whose `payload_size` header field is 640, not 100:
the field is computed after zero-padding, so the claim's value `L mod 320`
is wrong for every reply whose length is not a multiple of 320. -/
theorem send_audio_size_field_counterexample :
    ((sendAudioServer ⟨some 0, 0⟩ (List.replicate 100 0)).packets.getLast?.map
        Chunk.payloadSizeField = some 640) ∧ (640 : Nat) ≠ 100 % 320 := by
  constructor
  · have h1 : (List.replicate 100 (0 : Int)) ≠ [] := by
      apply List.ne_nil_of_length_pos
      simp
    have h2 : (List.replicate 100 (0 : Int)).drop chunkSamples = [] := by
      rw [List.drop_eq_nil_iff]
      simp [chunkSamples]
    show ((sendChunks (List.replicate 100 0) 0).getLast?.map
        Chunk.payloadSizeField = some 640)
    rw [sendChunks_cons _ _ h1, h2, sendChunks_nil]
    simp only [List.getLast?_singleton, Option.map_some', Option.some.injEq,
      Chunk.payloadSizeField, List.length_append, List.length_replicate,
      List.length_take, chunkSamples]
    omega
  · decide

/-- C1 (amended): with a client bound, `send_audio` on a nonempty reply of
`L` samples emits exactly `⌈L / 320⌉` chunks with contiguous, strictly
increasing sequence numbers `0..n-1`; the final chunk's slice before padding
has `L mod 320` samples (320 when `L` is a multiple of 320); and the
`payload_size` field written into every chunk's header — which the code
computes only after zero-padding — is always 640 bytes. -/
theorem send_audio_chunking (s : RecvState) (a : Nat) (samples : List Int)
    (hc : s.clientAddress = some a) (hne : samples ≠ []) :
    (sendAudioServer s samples).packets.length = (samples.length + 319) / 320 ∧
    (sendAudioServer s samples).packets.map Chunk.sequence
      = List.range ((samples.length + 319) / 320) ∧
    (∀ c ∈ (sendAudioServer s samples).packets, c.payloadSizeField = 640) ∧
    (sendAudioServer s samples).packets.getLast?.map Chunk.prePadSamples
      = some (if samples.length % 320 = 0 then 320 else samples.length % 320) := by
  have hp : (sendAudioServer s samples).packets = sendChunks samples 0 := by
    simp [sendAudioServer, hc]
  rw [hp]
  refine ⟨sendChunks_length samples 0, ?_,
    sendChunks_payloadSizeField samples 0,
    sendChunks_getLast_prePad samples 0 hne⟩
  rw [sendChunks_map_sequence samples 0, sendChunks_length samples 0,
    List.range_eq_range']

/-- Witness for C1 (amended) at a 3-sample reply with a bound client. -/
theorem send_audio_chunking_witness :
    (RecvState.mk (some 4) 0).clientAddress = some 4 ∧
    ([1, 2, 3] : List Int) ≠ [] ∧
    ((sendAudioServer ⟨some 4, 0⟩ [1, 2, 3]).packets.length
        = (([1, 2, 3] : List Int).length + 319) / 320 ∧
      (sendAudioServer ⟨some 4, 0⟩ [1, 2, 3]).packets.map Chunk.sequence
        = List.range ((([1, 2, 3] : List Int).length + 319) / 320) ∧
      (∀ c ∈ (sendAudioServer ⟨some 4, 0⟩ [1, 2, 3]).packets,
        c.payloadSizeField = 640) ∧
      (sendAudioServer ⟨some 4, 0⟩ [1, 2, 3]).packets.getLast?.map
          Chunk.prePadSamples
        = some (if ([1, 2, 3] : List Int).length % 320 = 0 then 320
            else ([1, 2, 3] : List Int).length % 320)) :=
  ⟨rfl, by decide, send_audio_chunking ⟨some 4, 0⟩ 4 [1, 2, 3] rfl (by decide)⟩

/-- C6: calling `send_audio` while no client endpoint is bound is a no-op:
it logs a warning, transmits no packet, raises nothing, and leaves the
server state unchanged. -/
theorem send_audio_unbound_noop (s : RecvState) (samples : List Int)
    (h : s.clientAddress = none) :
    sendAudioServer s samples = { state := s, packets := [], warned := true } := by
  simp [sendAudioServer, h]

/-- Witness for C6 at a concrete unbound state. -/
theorem send_audio_unbound_noop_witness :
    (RecvState.mk none 2).clientAddress = none ∧
    sendAudioServer ⟨none, 2⟩ [1, 2, 3]
      = { state := ⟨none, 2⟩, packets := [], warned := true } :=
  ⟨rfl, send_audio_unbound_noop ⟨none, 2⟩ [1, 2, 3] rfl⟩

/-! ## Segmentation loop (`HowdyTTSESP32Integration.process_audio_stream`,
lines 212-277)

Each iteration of the `while True` loop either dequeues a frame (appending its
samples to `audio_buffer` and resetting `last_audio_time`) or times out
(`queue.Empty`), in which case it measures
`silence_duration = (now - last_audio_time) * 1000` and, when the buffer is
nonempty and the measured silence strictly exceeds `silence_threshold_ms`
(500), finalizes: a buffer shorter than `min_audio_length * sample_rate`
(0.5 s × 16000 Hz = 8000 samples, since `len/16000 < 0.5  ↔  len < 8000`) is
discarded, otherwise it is handed to the transcription stage; in both cases
`audio_buffer` is reset to `[]`.  The `processing` flag is set and cleared
within the same iteration and never observed across iterations.

The embedding replaces real time by explicit events: `frame n` is a dequeued
chunk of `n` samples, `tick s` is an empty poll observing a measured silence
of `s` milliseconds.  The state is the accumulated sample count of
`audio_buffer`. -/

/-- `silence_threshold_ms` (line 120). -/
def silenceThresholdMs : Nat := 500

/-- `min_audio_length * sample_rate`: 0.5 s at 16 kHz.  The code's test
`len(audio_buffer)/16000 < 0.5` holds exactly when the count is below 8000. -/
def minAudioSamples : Nat := 8000

/-- An observation made by one iteration of the processing loop. -/
inductive SegEvent
  | frame (samples : Nat)
  | tick (silenceMs : Nat)
  deriving DecidableEq

/-- One iteration of `process_audio_stream`: the new buffer sample count and
the utterance handed to transcription, if any. -/
def segStep (buf : Nat) : SegEvent → Nat × Option Nat
  | .frame n => (buf + n, none)
  | .tick s =>
      if 0 < buf ∧ silenceThresholdMs < s then
        if buf < minAudioSamples then (0, none) else (0, some buf)
      else (buf, none)

/-- The processing loop folded over a finite event sequence, collecting the
emitted utterance sample counts. -/
def runSeg (buf : Nat) : List SegEvent → Nat × List Nat
  | [] => (buf, [])
  | e :: es =>
      ((runSeg (segStep buf e).1 es).1,
        (segStep buf e).2.toList ++ (runSeg (segStep buf e).1 es).2)

/-- The event sequence of one frame group: its frames, followed by an empty
poll observing the gap that separates it from the next group. -/
def groupEvents (g : List Nat × Nat) : List SegEvent :=
  g.1.map SegEvent.frame ++ [SegEvent.tick g.2]

/-- The event sequence of a list of frame groups separated by silence gaps. -/
def groupsTrace (gs : List (List Nat × Nat)) : List SegEvent :=
  (gs.map groupEvents).join

lemma runSeg_append (buf : Nat) (xs ys : List SegEvent) :
    runSeg buf (xs ++ ys)
      = ((runSeg (runSeg buf xs).1 ys).1,
          (runSeg buf xs).2 ++ (runSeg (runSeg buf xs).1 ys).2) := by
  induction xs generalizing buf with
  | nil => simp [runSeg]
  | cons e es ih => simp [runSeg, ih]

lemma runSeg_frames (buf : Nat) (fs : List Nat) :
    runSeg buf (fs.map SegEvent.frame) = (buf + fs.sum, []) := by
  induction fs generalizing buf with
  | nil => simp [runSeg]
  | cons n ns ih => simp [runSeg, segStep, ih, Nat.add_assoc]

/-- C2 counterexample: two groups of 9000 samples each, the first followed by
a silence gap of exactly the 500 ms threshold, the second by 600 ms.  The
claim ("gaps of at least the silence threshold") demands two utterances of
9000 samples; the code's strict comparison `silence_duration >
silence_threshold_ms` does not fire at exactly 500 ms, so the two groups
merge into a single 18000-sample utterance. -/
theorem segmentation_threshold_counterexample :
    runSeg 0 (groupsTrace [([9000], 500), ([9000], 600)]) = (0, [18000]) ∧
    runSeg 0 (groupsTrace [([9000], 500), ([9000], 600)]) ≠ (0, [9000, 9000]) := by
  constructor <;> decide

/-- C2 (amended): for groups of frames each followed by a silence gap in
which an empty poll observes a measured silence strictly greater than the
500 ms threshold (the code compares with `>`, so a gap of exactly the
threshold never finalizes), the loop emits exactly one utterance per group
whose sample count is the sum of the group's frame sizes, provided that sum
reaches the 8000-sample (0.5 s) minimum; a group below the minimum is
discarded without emitting anything and without error, and the buffer is
left empty after every group. -/
theorem segmentation_per_group (gs : List (List Nat × Nat))
    (hgap : ∀ g ∈ gs, silenceThresholdMs < g.2) :
    runSeg 0 (groupsTrace gs)
      = (0, (gs.map fun g => g.1.sum).filter fun t => minAudioSamples ≤ t) := by
  induction gs with
  | nil => simp [groupsTrace, runSeg]
  | cons g gs ih =>
    have hg : silenceThresholdMs < g.2 := hgap g (List.mem_cons_self g gs)
    have hgs : ∀ g ∈ gs, silenceThresholdMs < g.2 := by
      intro x hx
      exact hgap x (List.mem_cons_of_mem g hx)
    have hgroup : runSeg 0 (groupEvents g)
        = (0, if minAudioSamples ≤ g.1.sum then [g.1.sum] else []) := by
      rw [groupEvents, runSeg_append, runSeg_frames]
      by_cases hz : g.1.sum = 0
      · simp [runSeg, segStep, hz, minAudioSamples]
      · have hpos : 0 < g.1.sum := Nat.pos_of_ne_zero hz
        by_cases hm : g.1.sum < minAudioSamples
        · simp [runSeg, segStep, hpos, hg, hm, Nat.not_le.mpr hm]
        · simp [runSeg, segStep, hpos, hg, hm, Nat.le_of_not_lt hm]
    have htrace : groupsTrace (g :: gs) = groupEvents g ++ groupsTrace gs := by
      simp [groupsTrace]
    rw [htrace, runSeg_append, hgroup, ih hgs]
    by_cases hm : minAudioSamples ≤ g.1.sum <;>
      simp [hm, List.filter_cons]

/-- Witness for C2 (amended): one 9000-sample group followed by 600 ms of
silence yields exactly one 9000-sample utterance. -/
theorem segmentation_per_group_witness :
    (∀ g ∈ [([9000], 600)], silenceThresholdMs < g.2) ∧
    runSeg 0 (groupsTrace [([9000], 600)])
      = (0, (([([9000], 600)].map fun g => g.1.sum).filter
          fun t => minAudioSamples ≤ t)) :=
  ⟨by decide, segmentation_per_group [([9000], 600)] (by decide)⟩

/-! ## WebSocket message loop of the test server
(`tools/howdytts_test_server.py`, lines 256-391)

`websocket_endpoint` iterates `async for msg in ws`.  A TEXT message is fed
to `json.loads`; on `json.JSONDecodeError` an `{"type": "error", "error":
"Invalid JSON format"}` reply is sent and the loop simply continues.  A
successfully parsed message goes to `handle_websocket_message`, which
dispatches on `data.get('type')`; any unrecognized type gets an error-typed
reply.  A BINARY message is acknowledged; a WebSocket ERROR message breaks
the loop.  Message types and replies are modelled as tags; the payload
strings do not influence control flow. -/

/-- The `type` field of a parsed JSON message, as dispatched at lines
313-391 (any other or missing value falls to the `else` branch). -/
inductive MsgType
  | ping
  | textToSpeech
  | voiceStart
  | voiceEnd
  | echoTest
  | unrecognized
  deriving DecidableEq

/-- A reply sent on the WebSocket (JSON text or binary), tagged by its
`type` field. -/
inductive OutMsg
  | pong
  | ttsResponse
  | ttsAudioBinary (bytes : Nat)
  | voiceReady
  | voiceResult
  | echoResponse
  | invalidJsonError
  | unknownTypeError
  | audioReceived (bytes : Nat)
  deriving DecidableEq

/-- Whether a reply is error-typed (its JSON `type` field is `"error"`). -/
def OutMsg.isError : OutMsg → Bool
  | .invalidJsonError => true
  | .unknownTypeError => true
  | _ => false

/-- `handle_websocket_message`: replies sent for one parsed JSON message. -/
def handleWsMessage : MsgType → List OutMsg
  | .ping => [.pong]
  | .textToSpeech => [.ttsResponse, .ttsAudioBinary 1024]
  | .voiceStart => [.voiceReady]
  | .voiceEnd => [.voiceResult]
  | .echoTest => [.echoResponse]
  | .unrecognized => [.unknownTypeError]

/-- One inbound WebSocket message: a TEXT message carrying the outcome of
`json.loads` (`none` models `json.JSONDecodeError`), a BINARY message, or a
transport-level ERROR message. -/
inductive WsIncoming
  | text (parsed : Option MsgType)
  | binary (bytes : Nat)
  | sockError
  deriving DecidableEq

/-- One iteration of the `async for` loop: replies sent, and whether the
loop keeps running (only a transport ERROR message breaks it). -/
def wsStep : WsIncoming → List OutMsg × Bool
  | .text none => ([.invalidJsonError], true)
  | .text (some t) => (handleWsMessage t, true)
  | .binary n => ([.audioReceived n], true)
  | .sockError => ([], false)

/-- The message loop over a finite inbound sequence, collecting all replies
sent before the loop ends. -/
def runWsLoop : List WsIncoming → List OutMsg
  | [] => []
  | m :: ms =>
      (wsStep m).1 ++ (if (wsStep m).2 then runWsLoop ms else [])

/-- C8: a text message whose payload fails JSON parsing draws an error-typed
reply to the sender and does not terminate the connection — the replies to
every subsequent inbound message are still produced. -/
theorem malformed_json_error_reply (rest : List WsIncoming) :
    runWsLoop (.text none :: rest) = .invalidJsonError :: runWsLoop rest ∧
    OutMsg.isError .invalidJsonError = true := by
  constructor
  · simp [runWsLoop, wsStep]
  · rfl

/-! ## Stream-transport session state machine

Modelled from the spec: §4.4 "Session/Protocol State (stream transport
variant)" — the `Idle → Streaming → Idle` machine consuming
`tts_audio_start` / `tts_audio_chunk` / `tts_audio_end` control messages.
The Python sources only produce these messages
(`tools/validate_bidirectional_audio.py`); the consuming state machine is
device firmware not present among the sources, so it is embedded from the
specification's words: a chunk's `chunk_sequence` must equal the count of
chunks already accepted for the session, an accepted final chunk or an end
message closes the session, a start while streaming is rejected, and every
protocol violation is rejected with an error-typed response leaving the
session state unchanged.  Session identifiers are opaque (modelled as
`Nat`). -/

/-- Reasons a control message is rejected (the payload of an error-typed
response). -/
inductive SessionErr
  | outOfOrderChunk
  | startWhileStreaming
  | chunkWithoutSession
  | endWithoutSession
  deriving DecidableEq

/-- Response to a control message: accepted, or an error-typed rejection. -/
inductive SessionReply
  | ok
  | err (e : SessionErr)
  deriving DecidableEq

/-- Session/Protocol state: `Idle`, or `Streaming` with the session id and
the number of chunks already accepted (`chunks_sent`). -/
inductive SessionState
  | idle
  | streaming (sessionId : Nat) (chunksSent : Nat)
  deriving DecidableEq

/-- A stream-transport control message bracketing a synthesized reply. -/
inductive ControlMsg
  | start (sessionId : Nat)
  | chunk (sessionId : Nat) (chunkSequence : Nat) (isFinal : Bool)
  | endOfAudio (sessionId : Nat)
  deriving DecidableEq

/-- Modelled from the spec: the transition function of the §4.4 state
machine. -/
def handleControl : SessionState → ControlMsg → SessionState × SessionReply
  | .idle, .start sid => (.streaming sid 0, .ok)
  | .streaming sid n, .start _ =>
      (.streaming sid n, .err .startWhileStreaming)
  | .streaming sid n, .chunk _ seq isFinal =>
      if seq = n then
        (if isFinal then .idle else .streaming sid (n + 1), .ok)
      else
        (.streaming sid n, .err .outOfOrderChunk)
  | .idle, .chunk _ _ _ => (.idle, .err .chunkWithoutSession)
  | .streaming _ _, .endOfAudio _ => (.idle, .ok)
  | .idle, .endOfAudio _ => (.idle, .err .endWithoutSession)

/-- C4: in the `Streaming` state, a `tts_audio_chunk` whose `chunk_sequence`
differs from the number of chunks already accepted is rejected with an
error-typed response, and the session — including its `chunks_sent`
counter — is left unchanged. -/
theorem out_of_order_chunk_rejected (sid n sid2 seq : Nat) (isFinal : Bool)
    (h : seq ≠ n) :
    handleControl (.streaming sid n) (.chunk sid2 seq isFinal)
      = (.streaming sid n, .err .outOfOrderChunk) := by
  simp [handleControl, h]

/-- Witness for C4: chunk 2 arriving when only one chunk was accepted. -/
theorem out_of_order_chunk_rejected_witness :
    (2 : Nat) ≠ 1 ∧
    handleControl (.streaming 7 1) (.chunk 7 2 false)
      = (.streaming 7 1, .err .outOfOrderChunk) :=
  ⟨by decide, out_of_order_chunk_rejected 7 1 7 2 false (by decide)⟩

end HowdyScreen
